import Mathlib

/-!
# Honeycomb metric provider: result processing and the Run entry point

A shallow embedding of `internal/plugin/plugin.go` (`HoneycombProvider.Run`,
`HoneycombProvider.processResponse`) together with the data types of
`internal/plugin/honeycomp_api.go` that those two functions read.

Conventions of the embedding:

* a Go `error` is identified with its message text (`err.Error()`), and a
  `(T, error)` pair with `Except GoError T`;
* a Go call that may panic returns a `GoResult`;
* the `interface{}` values stored in a result row are values of `GoValue`;
* the expression library (`expr.Compile`, `expr.Run`) and the
  `honeycombAPI` interface are parameters: every theorem holds for all of their
  implementations;
* calls that `Run` makes are recorded in a trace carried by `World`.
-/

namespace Honeycomb

/-! ## Go runtime values -/

/-- The text of a Go `error` value. -/
abbrev GoError := String

/-- Result of a Go call: it returns a value or it panics with a message. -/
inductive GoResult (α : Type) where
  | ret (a : α)
  | panic (msg : String)
deriving DecidableEq, Repr

/-- Dynamic value held by an `interface{}`: the cell of a result row.
A `float64` is given as `num * 10 ^ exp10`. -/
inductive GoValue where
  | nil
  | int (v : Int)
  | float64 (num : Int) (exp10 : Int)
  | string (s : String)
  | bool (b : Bool)
deriving DecidableEq, Repr

/-- Name of the dynamic type, as the Go runtime prints it in the message of a
failed type assertion. -/
def GoValue.typeName : GoValue → String
  | .nil => "nil"
  | .int _ => "int"
  | .float64 _ _ => "float64"
  | .string _ => "string"
  | .bool _ => "bool"

/-- Go map indexing `m[key]` on a `map[string]interface{}`: the stored value,
or the zero value `nil` when the key is absent. -/
def mapIndex (m : List (String × GoValue)) (key : String) : GoValue :=
  match m.lookup key with
  | some v => v
  | none => GoValue.nil

/-- Base-10 text of an integer: `fmt.Sprintf("%d", v)`. -/
def fmtD (v : Int) : String := toString v

/-- Go `strings.Join(elems, sep)`. -/
def stringsJoin : List String → String → String
  | [], _ => ""
  | [a], _ => a
  | a :: b :: rest, sep => a ++ sep ++ stringsJoin (b :: rest) sep

/-! ## Data types of `honeycomp_api.go` -/

/-- Go struct `Calculation`; a nil `Column` pointer is `none`. -/
structure Calculation where
  Op : String
  Column : Option String
deriving DecidableEq, Repr

/-- Go struct `Query`, with the fields that `Run` and `processResponse` read. -/
structure Query where
  ID : String := ""
  Breakdowns : List String := []
  Calculations : List Calculation := []
deriving DecidableEq, Repr

/-- Go struct `ResultsDatum`: one result row. -/
structure ResultsDatum where
  Data : List (String × GoValue)
deriving DecidableEq, Repr

/-- Go struct `QueryResultData` (the `Series` slice is never read by the plugin). -/
structure QueryResultData where
  Results : List ResultsDatum := []
deriving DecidableEq, Repr

/-- Go struct `QueryResult`. -/
structure QueryResult where
  Query : Query := {}
  ID : String := ""
  Complete : Bool := false
  Data : QueryResultData := {}
deriving DecidableEq, Repr

/-! ## Types of the host (argo-rollouts `v1alpha1`) -/

/-- The `v1alpha1.AnalysisPhase` string type; `Unset` is its zero value `""`. -/
inductive AnalysisPhase where
  | Unset
  | Pending
  | Running
  | Successful
  | Failed
  | Error
  | Inconclusive
deriving DecidableEq, Repr

/-- Wall-clock reading of `timeutil.MetaNow()`. -/
abbrev Time := Nat

/-- Go struct `v1alpha1.Measurement`; nil timestamps are `none`. -/
structure Measurement where
  Phase : AnalysisPhase := AnalysisPhase.Unset
  Message : String := ""
  StartedAt : Option Time := none
  FinishedAt : Option Time := none
  Value : String := ""
deriving DecidableEq, Repr

/-- Go struct `v1alpha1.Metric`, with the two fields `processResponse` reads. -/
structure Metric where
  SuccessCondition : String := ""
  FailureCondition : String := ""
deriving DecidableEq, Repr

/-! ## The expression library -/

/-- Value produced by `expr.Run`: a Go `bool`, or a value of another dynamic
type, given by the name `%T` prints for it. -/
inductive ExprOutput where
  | bool (val : Bool)
  | other (typeName : String)
deriving DecidableEq, Repr

/-- The two entry points of `github.com/expr-lang/expr` that the plugin calls.
`Compile s` is `expr.Compile(s, expr.Env(envStruct{}))`; `Run prog v` is
`expr.Run(prog, envStruct{Result: v})`, where `prog` is a `*vm.Program`
(`none` is the nil pointer). -/
structure ExprEngine (Program : Type) where
  Compile : String → Except GoError Program
  Run : Option Program → Int → Except GoError ExprOutput

/-! ## `processResponse` -/

/-- The lookup key of `processResponse` (plugin.go lines 144-149):
`fmt.Sprintf("%s(%s)", Op, *Column)` when the column pointer is set, `Op` otherwise. -/
def lookupKey (c : Calculation) : String :=
  match c.Column with
  | some column => c.Op ++ "(" ++ column ++ ")"
  | none => c.Op

/-- The extraction loop of `processResponse` (plugin.go lines 151-158): for each
row in order, `resultValue := result.Data[op]`, `values[i] = resultValue.(int)`,
`valuesStr[i] = fmt.Sprintf("%d", resultValue)`. The unchecked type assertion
panics when the dynamic type is not `int`. -/
def extractValues (op : String) : List ResultsDatum → GoResult (List Int × List String)
  | [] => GoResult.ret ([], [])
  | row :: rest =>
    match mapIndex row.Data op with
    | GoValue.int v =>
      match extractValues op rest with
      | GoResult.ret (values, valuesStr) => GoResult.ret (v :: values, fmtD v :: valuesStr)
      | GoResult.panic msg => GoResult.panic msg
    | resultValue =>
      GoResult.panic ("interface conversion: interface \x7b\x7d is " ++ resultValue.typeName ++ ", not int")

/-- The value string of `processResponse` (plugin.go lines 160-164). -/
def renderValues (valuesStr : List String) : String :=
  "[" ++ stringsJoin valuesStr ", " ++ "]"

/-- The compile step of `processResponse` for one condition (plugin.go lines
174-179, and again 181-186): a non-empty condition is compiled, an empty one
leaves the program pointer nil. -/
def compileCondition {P : Type} (E : ExprEngine P) (condition : String) : Except GoError (Option P) :=
  if condition ≠ "" then
    match E.Compile condition with
    | Except.ok program => Except.ok (some program)
    | Except.error err => Except.error err
  else Except.ok none

/-- One condition applied to one value inside the loop of `processResponse`
(plugin.go lines 197-209, and again 211-223): when the condition is non-empty
its program is run, a `bool` output replaces the current flag, a run-time error
or a non-bool output is an error; when the condition is empty the flag is kept. -/
def applyCondition {P : Type} (E : ExprEngine P) (condition : String) (program : Option P)
    (resultValue : Int) (current : Bool) : Except GoError Bool :=
  if condition ≠ "" then
    match E.Run program resultValue with
    | Except.error err => Except.error err
    | Except.ok (ExprOutput.bool val) => Except.ok val
    | Except.ok (ExprOutput.other typeName) => Except.error ("expected bool, but got " ++ typeName)
  else Except.ok current

/-- The evaluation loop of `processResponse` (plugin.go lines 192-224) from the
state `(successCondition, failCondition)`: every value is visited in order, the
flags are overwritten at each value, the first error ends the loop. -/
def evalLoop {P : Type} (E : ExprEngine P) (metric : Metric) (successProgram failProgram : Option P) :
    List Int → Bool × Bool → Except GoError (Bool × Bool)
  | [], flags => Except.ok flags
  | resultValue :: rest, (successCondition, failCondition) =>
    match applyCondition E metric.SuccessCondition successProgram resultValue successCondition with
    | Except.error err => Except.error err
    | Except.ok successCondition1 =>
      match applyCondition E metric.FailureCondition failProgram resultValue failCondition with
      | Except.error err => Except.error err
      | Except.ok failCondition1 =>
        evalLoop E metric successProgram failProgram rest (successCondition1, failCondition1)

/-- The `switch` of `processResponse` (plugin.go lines 226-233): a missing
condition takes the negation of the supplied one. -/
def tieBreak (metric : Metric) (flags : Bool × Bool) : Bool × Bool :=
  if metric.SuccessCondition ≠ "" ∧ metric.FailureCondition = "" then (flags.1, !flags.1)
  else if metric.SuccessCondition = "" ∧ metric.FailureCondition ≠ "" then (!flags.2, flags.2)
  else flags

/-- The final reduction of `processResponse` (plugin.go lines 235-243). -/
def reducePhase (flags : Bool × Bool) : AnalysisPhase :=
  if flags.2 then AnalysisPhase.Failed
  else if !flags.2 && !flags.1 then AnalysisPhase.Inconclusive
  else AnalysisPhase.Successful

/-- The part of `processResponse` after the value string is built (plugin.go
lines 166-243). The returned error is `none` for Go's nil. -/
def evaluateConditions {P : Type} (E : ExprEngine P) (metric : Metric) (values : List Int)
    (valueStr : String) : String × AnalysisPhase × Option GoError :=
  if metric.SuccessCondition = "" ∧ metric.FailureCondition = "" then
    (valueStr, AnalysisPhase.Successful, none)
  else
    match compileCondition E metric.SuccessCondition with
    | Except.error err => (valueStr, AnalysisPhase.Failed, some err)
    | Except.ok successProgram =>
      match compileCondition E metric.FailureCondition with
      | Except.error err => (valueStr, AnalysisPhase.Failed, some err)
      | Except.ok failProgram =>
        match evalLoop E metric successProgram failProgram values (false, false) with
        | Except.error err => (valueStr, AnalysisPhase.Error, some err)
        | Except.ok flags => (valueStr, reducePhase (tieBreak metric flags), none)

/-- `HoneycombProvider.processResponse` (plugin.go lines 134-244). It returns
`(valueStr, phase, err)` or panics in the extraction loop. -/
def processResponse {P : Type} (E : ExprEngine P) (metric : Metric) (result : QueryResult) :
    GoResult (String × AnalysisPhase × Option GoError) :=
  if result.Data.Results.length = 0 then
    GoResult.ret ("", AnalysisPhase.Failed, some "no results returned")
  else
    match result.Query.Calculations with
    | [] => GoResult.ret ("", AnalysisPhase.Failed, some "no calculations specifed in query")
    | c0 :: _ =>
      match extractValues (lookupKey c0) result.Data.Results with
      | GoResult.panic msg => GoResult.panic msg
      | GoResult.ret (values, valuesStr) =>
        GoResult.ret (evaluateConditions E metric values (renderValues valuesStr))

/-! ## The provider and `Run` -/

/-- Go struct `HoneycombProvider`: the cached query ID and the configuration.
The `api` field is the `honeycombAPI` parameter of `Run`. -/
structure HoneycombProvider where
  queryID : String := ""
  rawQuery : String := ""
  dataset : String := ""
deriving DecidableEq, Repr

/-- Go interface `honeycombAPI`. An implementation may keep state (the backend,
a call counter of a test double): `σ` is that state. A call returns either a
result or an error, never both nil. -/
structure honeycombAPI (σ : Type) where
  CreateQuery : String → String → σ → Except GoError Query × σ
  GetQueryResult : String → String → σ → Except GoError QueryResult × σ

/-- What `Run` reaches outside the provider: the API and the wall clock
`timeutil.MetaNow()`, both over the external state `σ`. -/
structure Host (σ : Type) where
  api : honeycombAPI σ
  MetaNow : σ → Time × σ

/-- A call made by `Run`, with its arguments. -/
inductive Call where
  | CreateQuery (query dataset : String)
  | GetQueryResult (queryID dataset : String)
  | processResponse
deriving DecidableEq, Repr

/-- External state together with the trace of the calls made so far, oldest first. -/
structure World (σ : Type) where
  ext : σ
  calls : List Call := []

/-- Modelled from the spec: `metricutil.MarkMeasurementError` of argo-rollouts is
called by `Run` and is not part of this repository. An error is captured
verbatim as the message of the outcome with phase `Error`, and the end timestamp
is stamped when it is not yet set; the other fields are kept. The assertions
of plugin_test.go on an errored `Run` (message, phase, both timestamps, empty
value) agree with this. -/
def MarkMeasurementError {σ : Type} (H : Host σ) (m : Measurement) (err : GoError) (s : σ) :
    Measurement × σ :=
  let m1 := { m with Phase := AnalysisPhase.Error, Message := err }
  match m1.FinishedAt with
  | none => ({ m1 with FinishedAt := some (H.MetaNow s).1 }, (H.MetaNow s).2)
  | some _ => (m1, s)

/-- Lines 104-111 of `Run`: when no query ID is cached, `CreateQuery` is called
and its query ID is stored on the provider; when one is cached nothing is done. -/
def ensureQueryID {σ : Type} (H : Host σ) (p : HoneycombProvider) (w : World σ) :
    Except GoError Unit × HoneycombProvider × World σ :=
  if p.queryID = "" then
    match H.api.CreateQuery p.rawQuery p.dataset w.ext with
    | (Except.error err, s) =>
      (Except.error err, p, { ext := s, calls := w.calls ++ [Call.CreateQuery p.rawQuery p.dataset] })
    | (Except.ok query, s) =>
      (Except.ok (), { p with queryID := query.ID },
        { ext := s, calls := w.calls ++ [Call.CreateQuery p.rawQuery p.dataset] })
  else (Except.ok (), p, w)

/-- A return of `Run` through `MarkMeasurementError`. -/
def returnError {σ : Type} (H : Host σ) (m : Measurement) (err : GoError) (p : HoneycombProvider)
    (w : World σ) : GoResult Measurement × HoneycombProvider × World σ :=
  (GoResult.ret (MarkMeasurementError H m err w.ext).1, p,
    { w with ext := (MarkMeasurementError H m err w.ext).2 })

/-- `HoneycombProvider.Run` (plugin.go lines 95-128). It returns the measurement
(or propagates the panic of `processResponse`), the provider with its possibly
updated query ID, and the external state with the extended call trace. The
context deadline is not modelled. -/
def Run {σ P : Type} (H : Host σ) (E : ExprEngine P) (p : HoneycombProvider) (metric : Metric)
    (w : World σ) : GoResult Measurement × HoneycombProvider × World σ :=
  let newMeasurement : Measurement := { StartedAt := some (H.MetaNow w.ext).1 }
  let w0 : World σ := { w with ext := (H.MetaNow w.ext).2 }
  match ensureQueryID H p w0 with
  | (Except.error err, p1, w1) => returnError H newMeasurement err p1 w1
  | (Except.ok _, p1, w1) =>
    match H.api.GetQueryResult p1.queryID p1.dataset w1.ext with
    | (Except.error err, s2) =>
      returnError H newMeasurement err p1
        { ext := s2, calls := w1.calls ++ [Call.GetQueryResult p1.queryID p1.dataset] }
    | (Except.ok queryResult, s2) =>
      let w2 : World σ :=
        { ext := s2,
          calls := w1.calls ++ [Call.GetQueryResult p1.queryID p1.dataset, Call.processResponse] }
      match processResponse E metric queryResult with
      | GoResult.panic msg => (GoResult.panic msg, p1, w2)
      | GoResult.ret (_, _, some err) => returnError H newMeasurement err p1 w2
      | GoResult.ret (valueStr, newStatus, none) =>
        (GoResult.ret { newMeasurement with
            Value := valueStr, Phase := newStatus, FinishedAt := some (H.MetaNow w2.ext).1 },
          p1, { w2 with ext := (H.MetaNow w2.ext).2 })

/-- Consecutive calls of `Run` on one provider instance, one per metric of the
list; a panic ends the sequence. -/
def runMany {σ P : Type} (H : Host σ) (E : ExprEngine P) :
    List Metric → HoneycombProvider → World σ → HoneycombProvider × World σ
  | [], p, w => (p, w)
  | metric :: rest, p, w =>
    match (Run H E p metric w).1 with
    | GoResult.panic _ => ((Run H E p metric w).2.1, (Run H E p metric w).2.2)
    | GoResult.ret _ => runMany H E rest (Run H E p metric w).2.1 (Run H E p metric w).2.2

/-- Number of `CreateQuery` calls in a trace. -/
def countCreateQuery (calls : List Call) : Nat :=
  (calls.filter fun c => match c with
    | Call.CreateQuery _ _ => true
    | _ => false).length

/-- Query IDs passed to `GetQueryResult` in a trace, in call order. -/
def resolvedQueryIDs : List Call → List String
  | [] => []
  | Call.GetQueryResult queryID _ :: rest => queryID :: resolvedQueryIDs rest
  | _ :: rest => resolvedQueryIDs rest

/-! ## Reference definitions for the statements -/

/-- The canonical rendering of a series of integers: `[v1, v2, ...]`, the
base-10 texts in order, separated by a comma and a space. -/
def canonicalRendering (vs : List Int) : String :=
  "[" ++ ", ".intercalate (vs.map fun v => toString v) ++ "]"

/-- The flags of the evaluation loop after the value `v`, when each supplied
condition gives the boolean `sB v`, respectively `fB v`, on it. -/
def stepFlags (metric : Metric) (sB fB : Int → Bool) (flags : Bool × Bool) (v : Int) : Bool × Bool :=
  (if metric.SuccessCondition ≠ "" then sB v else flags.1,
   if metric.FailureCondition ≠ "" then fB v else flags.2)

/-- The cells found under `key` in the rows, in row order. -/
def cellsUnder (key : String) (rows : List ResultsDatum) : List GoValue :=
  rows.map fun row => mapIndex row.Data key

/-! ## Test doubles -/

/-- The test double `mockAPI` of plugin_test.go: both methods return the
configured error when there is one; otherwise `CreateQuery` returns the zero
`Query` and `GetQueryResult` the configured response. -/
def mockAPI (response : QueryResult) (err : Option GoError) : honeycombAPI Nat where
  CreateQuery := fun _ _ s =>
    match err with
    | some e => (Except.error e, s)
    | none => (Except.ok {}, s)
  GetQueryResult := fun _ _ s =>
    match err with
    | some e => (Except.error e, s)
    | none => (Except.ok response, s)

/-- A host around `mockAPI` whose state is a clock that advances at each reading. -/
def mockHost (response : QueryResult) (err : Option GoError) : Host Nat where
  api := mockAPI response err
  MetaNow := fun s => (s, s + 1)

/-- Programs of the small expression engine used in the examples. -/
inductive MiniProgram where
  | less (bound : Int)
  | greater (bound : Int)
  | equal (bound : Int)
  | notEqual (bound : Int)
  | result
  | remZero
deriving DecidableEq, Repr

/-- A small expression engine for the examples: it compiles the conditions of
plugin_test.go and of the scenarios, the bare `result` (an `int` output) and a
remainder by zero (a run-time error), and rejects every other text. -/
def miniExpr : ExprEngine MiniProgram where
  Compile := fun s =>
    if s = "result < 300" then Except.ok (MiniProgram.less 300)
    else if s = "result > 310" then Except.ok (MiniProgram.greater 310)
    else if s = "result > 240" then Except.ok (MiniProgram.greater 240)
    else if s = "result > 200" then Except.ok (MiniProgram.greater 200)
    else if s = "result == 300" then Except.ok (MiniProgram.equal 300)
    else if s = "result != 300" then Except.ok (MiniProgram.notEqual 300)
    else if s = "result" then Except.ok MiniProgram.result
    else if s = "result % 0 == 0" then Except.ok MiniProgram.remZero
    else Except.error ("unexpected token in: " ++ s)
  Run := fun program v =>
    match program with
    | none => Except.error "nil program"
    | some (MiniProgram.less b) => Except.ok (ExprOutput.bool (decide (v < b)))
    | some (MiniProgram.greater b) => Except.ok (ExprOutput.bool (decide (v > b)))
    | some (MiniProgram.equal b) => Except.ok (ExprOutput.bool (decide (v = b)))
    | some (MiniProgram.notEqual b) => Except.ok (ExprOutput.bool (decide (v ≠ b)))
    | some MiniProgram.result => Except.ok (ExprOutput.other "int")
    | some MiniProgram.remZero => Except.error "integer divide by zero"

/-- The query of `mockQueryResult` in plugin_test.go. -/
def mockQuery : Query :=
  { ID := "string", Breakdowns := ["user_agent"],
    Calculations := [{ Op := "P99", Column := some "duration_ms" }] }

/-- A result row of `mockQueryResult` with the given cell under `P99(duration_ms)`. -/
def mockRow (cell : GoValue) : ResultsDatum :=
  { Data := [("P99(duration_ms)", cell),
      ("name", GoValue.string "TestGoogleCallbackLogin"),
      ("test.classname", GoValue.string "github.com/honeycombio/hound/cmd/poodle/handlers"),
      ("test.status", GoValue.string "passed")] }

/-- The result of `mockQueryResult` in plugin_test.go: rows 210 and 250. -/
def mockQueryResult : QueryResult :=
  { Query := mockQuery, ID := "sGUnkBHgRFN", Complete := true,
    Data := { Results := [mockRow (GoValue.int 210), mockRow (GoValue.int 250)] } }

/-- The result of `mockEmptyQueryResult` in plugin_test.go: no rows. -/
def mockEmptyQueryResult : QueryResult :=
  { Query := mockQuery, ID := "sGUnkBHgRFN", Complete := true, Data := { Results := [] } }

/-! ## The client: `honeycombClient.GetQueryResult` -/

/-- Constant `HoneycombURL` of honeycomp_api.go. -/
def HoneycombURL : String := "https://api.honeycomb.io"

/-- Go struct `errorResponse`. -/
structure errorResponse where
  Error : String := ""
deriving DecidableEq, Repr

/-- Go struct `createQueryResultRequest`. -/
structure createQueryResultRequest where
  QueryID : String
  DisableSeries : Bool
  Limit : Int
deriving DecidableEq, Repr

/-- What one poll tick gets from the transport: `c.client.Do(req)` fails, or
`io.ReadAll(resp.Body)` fails, or a response with a status code and a body. -/
inductive TickResponse where
  | doError (err : GoError)
  | readError (err : GoError)
  | response (StatusCode : Nat) (bodyBytes : String)
deriving DecidableEq, Repr

/-- The HTTP side of one `GetQueryResult` call. `NewRequest method url` is
`http.NewRequestWithContext`; `Post url payload` is `c.client.Do` on the POST
request and gives the `Location` header of the response; `Ticks url` lists what
the GET on `url` receives at the successive ticks: those that the `select`
takes before the 10 second timer fires, after which the timer case runs. -/
structure HttpTransport where
  NewRequest : String → String → Except GoError Unit
  Post : String → createQueryResultRequest → Except GoError String
  Ticks : String → List TickResponse

/-- The two uses of `json.Unmarshal` in the poll loop. Decoding into `&qr`
writes into the `QueryResult` kept across ticks, so it takes the current one;
`e` is a fresh `errorResponse` at every tick. -/
structure JsonDecoder where
  unmarshalQueryResult : String → QueryResult → Except GoError QueryResult
  unmarshalErrorResponse : String → Except GoError errorResponse

/-- Go struct `honeycombClient`. -/
structure honeycombClient where
  apiKey : String
  client : HttpTransport

/-- How one pass through the `ticker.C` case ends: `break loop` with the
decoded result, a `return nil, err`, or the next iteration of the loop with
the current `qr`. -/
inductive TickOutcome where
  | done (qr : QueryResult)
  | fail (err : GoError)
  | again (qr : QueryResult)
deriving DecidableEq, Repr

/-- The `ticker.C` case of the poll loop (honeycomp_api.go lines 238-263). -/
def pollTick (J : JsonDecoder) (tick : TickResponse) (qr : QueryResult) : TickOutcome :=
  match tick with
  | TickResponse.doError err => TickOutcome.fail ("failed to execute request: " ++ err)
  | TickResponse.readError err => TickOutcome.fail ("failed to read response body: " ++ err)
  | TickResponse.response StatusCode bodyBytes =>
    let afterStatusOK : TickOutcome :=
      if StatusCode = 200 then
        match J.unmarshalQueryResult bodyBytes qr with
        | Except.error err => TickOutcome.fail ("failed to unmarshal response body: " ++ err)
        | Except.ok qr1 => if qr1.Complete = true then TickOutcome.done qr1 else TickOutcome.again qr1
      else TickOutcome.again qr
    match afterStatusOK with
    | TickOutcome.again qr1 =>
      match J.unmarshalErrorResponse bodyBytes with
      | Except.error err => TickOutcome.fail ("failed to unmarshal response body: " ++ err)
      | Except.ok _ => TickOutcome.again qr1
    | outcome => outcome

/-- The poll loop (honeycomp_api.go lines 232-267) over the ticks taken before
the timer fires: when they are used up the `timer.C` case returns the
timeout error. -/
def pollLoop (J : JsonDecoder) : List TickResponse → QueryResult → Except GoError QueryResult
  | [], _ => Except.error "timed out waiting for query result"
  | tick :: rest, qr =>
    match pollTick J tick qr with
    | TickOutcome.done qr1 => Except.ok qr1
    | TickOutcome.fail err => Except.error err
    | TickOutcome.again qr1 => pollLoop J rest qr1

/-- `honeycombClient.GetQueryResult` (honeycomp_api.go lines 178-268). The
request headers are not modelled, and `json.Marshal` of the request payload,
a struct of a string, a bool and an int, does not fail. -/
def honeycombClient.GetQueryResult (c : honeycombClient) (J : JsonDecoder)
    (queryID dataset : String) : Except GoError QueryResult :=
  if queryID = "" then Except.error "query ID cannot be empty"
  else
    let dataset1 := if dataset = "" then "__all__" else dataset
    let reqPayload : createQueryResultRequest :=
      { QueryID := queryID, DisableSeries := false, Limit := 10000 }
    match c.client.NewRequest "POST" (HoneycombURL ++ "/1/query_results/" ++ dataset1) with
    | Except.error err => Except.error ("failed to create request: " ++ err)
    | Except.ok _ =>
      match c.client.Post (HoneycombURL ++ "/1/query_results/" ++ dataset1) reqPayload with
      | Except.error err => Except.error ("failed to execute request: " ++ err)
      | Except.ok location =>
        match c.client.NewRequest "GET" (HoneycombURL ++ location) with
        | Except.error err => Except.error ("failed to create request: " ++ err)
        | Except.ok _ => pollLoop J (c.client.Ticks (HoneycombURL ++ location)) {}

/-- A tick is a response with a status other than 200 whose body decodes as an
`errorResponse`. -/
def TickResponse.isTolerated (J : JsonDecoder) : TickResponse → Bool
  | TickResponse.response StatusCode bodyBytes =>
    decide (StatusCode ≠ 200) &&
      (match J.unmarshalErrorResponse bodyBytes with
        | Except.ok _ => true
        | Except.error _ => false)
  | _ => false

/-- A tick is a response with a status other than 200, whatever its body. -/
def TickResponse.isNon200 : TickResponse → Bool
  | TickResponse.response StatusCode _ => decide (StatusCode ≠ 200)
  | _ => false

/-- A small JSON decoder for the examples. It knows five bodies: a complete and
an incomplete query result, an error object, an HTML page and the empty
body; the last two are not JSON. -/
def miniJson : JsonDecoder where
  unmarshalQueryResult := fun bodyBytes qr =>
    if bodyBytes = "\x7b\"complete\":true\x7d" then Except.ok { qr with Complete := true }
    else if bodyBytes = "\x7b\"complete\":false\x7d" then Except.ok { qr with Complete := false }
    else if bodyBytes = "\x7b\"error\":\"not ready\"\x7d" then Except.ok qr
    else if bodyBytes = "" then Except.error "unexpected end of JSON input"
    else Except.error "invalid character '<' looking for beginning of value"
  unmarshalErrorResponse := fun bodyBytes =>
    if bodyBytes = "\x7b\"complete\":true\x7d" then Except.ok {}
    else if bodyBytes = "\x7b\"complete\":false\x7d" then Except.ok {}
    else if bodyBytes = "\x7b\"error\":\"not ready\"\x7d" then Except.ok { Error := "not ready" }
    else if bodyBytes = "" then Except.error "unexpected end of JSON input"
    else Except.error "invalid character '<' looking for beginning of value"

/-- A client whose transport accepts every request, answers the POST with the
given `Location` and the GETs with the given ticks. -/
def scriptedClient (location : String) (ticks : List TickResponse) : honeycombClient where
  apiKey := "key"
  client :=
    { NewRequest := fun _ _ => Except.ok ()
      Post := fun _ _ => Except.ok location
      Ticks := fun _ => ticks }

/-! ## Lemmas on rendering and extraction -/

theorem intercalate_go_append (sep acc x : String) (rest : List String) :
    String.intercalate.go (acc ++ x) sep rest = acc ++ String.intercalate.go x sep rest := by
  induction rest generalizing x with
  | nil => simp [String.intercalate.go]
  | cons c r ih =>
    simp only [String.intercalate.go]
    rw [String.append_assoc, String.append_assoc, ih, ← String.append_assoc]

theorem stringsJoin_cons (sep a : String) (rest : List String) :
    stringsJoin (a :: rest) sep = String.intercalate.go a sep rest := by
  induction rest generalizing a with
  | nil => simp [stringsJoin, String.intercalate.go]
  | cons b r ih =>
    simp only [stringsJoin, String.intercalate.go]
    rw [ih, intercalate_go_append]

theorem stringsJoin_eq_intercalate (sep : String) (elems : List String) :
    stringsJoin elems sep = sep.intercalate elems := by
  cases elems with
  | nil => simp [stringsJoin, String.intercalate]
  | cons a rest => simp [stringsJoin_cons, String.intercalate]

theorem renderValues_fmtD (vs : List Int) :
    renderValues (vs.map fmtD) = canonicalRendering vs := by
  simp only [renderValues, canonicalRendering, stringsJoin_eq_intercalate]
  rfl

theorem extractValues_ints (op : String) (rows : List ResultsDatum) (vs : List Int)
    (h : cellsUnder op rows = vs.map GoValue.int) :
    extractValues op rows = GoResult.ret (vs, vs.map fmtD) := by
  induction rows generalizing vs with
  | nil =>
    cases vs with
    | nil => simp [extractValues]
    | cons v vs => simp [cellsUnder] at h
  | cons row rest ih =>
    cases vs with
    | nil => simp [cellsUnder] at h
    | cons v vs =>
      simp only [cellsUnder, List.map_cons, List.cons.injEq] at h
      have hrest := ih vs h.2
      simp only [extractValues, h.1, hrest, List.map_cons]

/-- When every row holds an integer under the lookup key of the first
calculation, `processResponse` returns what the evaluation part returns on
the extracted integers and their canonical rendering. -/
theorem processResponse_extracted {P : Type} (E : ExprEngine P) (metric : Metric)
    (result : QueryResult) (c0 : Calculation) (cs : List Calculation) (vs : List Int)
    (hrows : result.Data.Results ≠ [])
    (hcalc : result.Query.Calculations = c0 :: cs)
    (hcells : cellsUnder (lookupKey c0) result.Data.Results = vs.map GoValue.int) :
    processResponse E metric result
      = GoResult.ret (evaluateConditions E metric vs (canonicalRendering vs)) := by
  have hlen : ¬ result.Data.Results.length = 0 := by
    simpa [List.length_eq_zero] using hrows
  simp only [processResponse, hlen, if_false, hcalc, extractValues_ints _ _ _ hcells,
    renderValues_fmtD]

/-! ## Lemmas on the evaluation loop -/

theorem evaluateConditions_fst {P : Type} (E : ExprEngine P) (metric : Metric) (values : List Int)
    (valueStr : String) : (evaluateConditions E metric values valueStr).1 = valueStr := by
  unfold evaluateConditions
  split
  · rfl
  · split
    · rfl
    · split
      · rfl
      · split <;> rfl

theorem applyCondition_empty {P : Type} (E : ExprEngine P) (program : Option P) (v : Int)
    (current : Bool) : applyCondition E "" program v current = Except.ok current := by
  simp [applyCondition]

theorem applyCondition_bool {P : Type} (E : ExprEngine P) (condition : String) (program : Option P)
    (v : Int) (current b : Bool) (hne : condition ≠ "")
    (hrun : E.Run program v = Except.ok (ExprOutput.bool b)) :
    applyCondition E condition program v current = Except.ok b := by
  simp [applyCondition, hne, hrun]

theorem evalLoop_bools {P : Type} (E : ExprEngine P) (metric : Metric)
    (successProgram failProgram : Option P) (sB fB : Int → Bool) (vs : List Int) (flags : Bool × Bool)
    (hS : metric.SuccessCondition ≠ "" →
      ∀ v ∈ vs, E.Run successProgram v = Except.ok (ExprOutput.bool (sB v)))
    (hF : metric.FailureCondition ≠ "" →
      ∀ v ∈ vs, E.Run failProgram v = Except.ok (ExprOutput.bool (fB v))) :
    evalLoop E metric successProgram failProgram vs flags
      = Except.ok (vs.foldl (stepFlags metric sB fB) flags) := by
  induction vs generalizing flags with
  | nil => cases flags; simp [evalLoop]
  | cons v rest ih =>
    obtain ⟨s, f⟩ := flags
    have hS1 : applyCondition E metric.SuccessCondition successProgram v s
        = Except.ok (stepFlags metric sB fB (s, f) v).1 := by
      by_cases hne : metric.SuccessCondition = ""
      · simp [hne, applyCondition_empty, stepFlags]
      · rw [applyCondition_bool E _ _ v s (sB v) hne (hS hne v (List.mem_cons_self _ _))]
        simp [stepFlags, hne]
    have hF1 : applyCondition E metric.FailureCondition failProgram v f
        = Except.ok (stepFlags metric sB fB (s, f) v).2 := by
      by_cases hne : metric.FailureCondition = ""
      · simp [hne, applyCondition_empty, stepFlags]
      · rw [applyCondition_bool E _ _ v f (fB v) hne (hF hne v (List.mem_cons_self _ _))]
        simp [stepFlags, hne]
    simp only [evalLoop, hS1, hF1, List.foldl_cons]
    exact ih _ (fun hne u hu => hS hne u (List.mem_cons_of_mem _ hu))
      (fun hne u hu => hF hne u (List.mem_cons_of_mem _ hu))

theorem evalLoop_last {P : Type} (E : ExprEngine P) (metric : Metric)
    (successProgram failProgram : Option P) (sB fB : Int → Bool) (init : List Int) (last : Int)
    (hS : metric.SuccessCondition ≠ "" →
      ∀ v ∈ init ++ [last], E.Run successProgram v = Except.ok (ExprOutput.bool (sB v)))
    (hF : metric.FailureCondition ≠ "" →
      ∀ v ∈ init ++ [last], E.Run failProgram v = Except.ok (ExprOutput.bool (fB v))) :
    evalLoop E metric successProgram failProgram (init ++ [last]) (false, false)
      = Except.ok (stepFlags metric sB fB (init.foldl (stepFlags metric sB fB) (false, false)) last) := by
  rw [evalLoop_bools E metric successProgram failProgram sB fB (init ++ [last]) (false, false) hS hF]
  simp [List.foldl_append]

theorem compileCondition_empty {P : Type} (E : ExprEngine P) :
    compileCondition E "" = Except.ok none := by
  simp [compileCondition]

theorem compileCondition_ok {P : Type} (E : ExprEngine P) (condition : String) (program : P)
    (hne : condition ≠ "") (hc : E.Compile condition = Except.ok program) :
    compileCondition E condition = Except.ok (some program) := by
  simp [compileCondition, hne, hc]

theorem compileCondition_error {P : Type} (E : ExprEngine P) (condition : String) (err : GoError)
    (hne : condition ≠ "") (hc : E.Compile condition = Except.error err) :
    compileCondition E condition = Except.error err := by
  simp [compileCondition, hne, hc]

theorem evaluateConditions_flags {P : Type} (E : ExprEngine P) (metric : Metric) (values : List Int)
    (valueStr : String) (successProgram failProgram : Option P) (flags : Bool × Bool)
    (hsome : ¬ (metric.SuccessCondition = "" ∧ metric.FailureCondition = ""))
    (hSc : compileCondition E metric.SuccessCondition = Except.ok successProgram)
    (hFc : compileCondition E metric.FailureCondition = Except.ok failProgram)
    (hloop : evalLoop E metric successProgram failProgram values (false, false) = Except.ok flags) :
    evaluateConditions E metric values valueStr
      = (valueStr, reducePhase (tieBreak metric flags), none) := by
  simp only [evaluateConditions, hsome, if_false, hSc, hFc, hloop]

theorem cellsUnder_ne_nil (key : String) (rows : List ResultsDatum) (init : List Int) (last : Int)
    (h : cellsUnder key rows = (init ++ [last]).map GoValue.int) : rows ≠ [] := by
  intro hnil
  subst hnil
  simp [cellsUnder] at h

/-! ## Claims on `processResponse` -/

/-- C1: when every row holds an integer under the lookup key of the first
calculation and both conditions are non-empty, compile, and give a boolean
on every extracted value, `processResponse` returns no error and the phase
is `Failed` when the failure condition is true on the last value,
`Inconclusive` when both conditions are false on it, and `Successful`
otherwise; the earlier values `init` do not occur in the phase. -/
theorem processResponse_both_conditions {P : Type} (E : ExprEngine P) (metric : Metric)
    (result : QueryResult) (c0 : Calculation) (cs : List Calculation)
    (init : List Int) (last : Int) (sp fp : P) (sB fB : Int → Bool)
    (hcalc : result.Query.Calculations = c0 :: cs)
    (hcells : cellsUnder (lookupKey c0) result.Data.Results = (init ++ [last]).map GoValue.int)
    (hS : metric.SuccessCondition ≠ "") (hF : metric.FailureCondition ≠ "")
    (hSc : E.Compile metric.SuccessCondition = Except.ok sp)
    (hFc : E.Compile metric.FailureCondition = Except.ok fp)
    (hSr : ∀ v ∈ init ++ [last], E.Run (some sp) v = Except.ok (ExprOutput.bool (sB v)))
    (hFr : ∀ v ∈ init ++ [last], E.Run (some fp) v = Except.ok (ExprOutput.bool (fB v))) :
    processResponse E metric result
      = GoResult.ret (canonicalRendering (init ++ [last]),
          (if fB last = true then AnalysisPhase.Failed
           else if fB last = false ∧ sB last = false then AnalysisPhase.Inconclusive
           else AnalysisPhase.Successful),
          none) := by
  rw [processResponse_extracted E metric result c0 cs (init ++ [last])
    (cellsUnder_ne_nil _ _ init last hcells) hcalc hcells]
  rw [evaluateConditions_flags E metric _ _ (some sp) (some fp) _ (fun h => hS h.1)
    (compileCondition_ok E _ sp hS hSc) (compileCondition_ok E _ fp hF hFc)
    (evalLoop_last E metric (some sp) (some fp) sB fB init last (fun _ => hSr) (fun _ => hFr))]
  cases hf : fB last <;> cases hs : sB last <;> simp [tieBreak, reducePhase, stepFlags, hS, hF, hf, hs]

/-- C2: with a non-empty success condition that compiles and gives a boolean
on every extracted value, and an empty failure condition, the phase of
`processResponse` is `Successful` when the last value satisfies the success
condition and `Failed` otherwise, so it is never `Inconclusive`. -/
theorem processResponse_success_only {P : Type} (E : ExprEngine P) (metric : Metric)
    (result : QueryResult) (c0 : Calculation) (cs : List Calculation)
    (init : List Int) (last : Int) (sp : P) (sB : Int → Bool)
    (hcalc : result.Query.Calculations = c0 :: cs)
    (hcells : cellsUnder (lookupKey c0) result.Data.Results = (init ++ [last]).map GoValue.int)
    (hS : metric.SuccessCondition ≠ "") (hF : metric.FailureCondition = "")
    (hSc : E.Compile metric.SuccessCondition = Except.ok sp)
    (hSr : ∀ v ∈ init ++ [last], E.Run (some sp) v = Except.ok (ExprOutput.bool (sB v))) :
    ∃ phase, processResponse E metric result
        = GoResult.ret (canonicalRendering (init ++ [last]), phase, none)
      ∧ (phase = AnalysisPhase.Successful ↔ sB last = true)
      ∧ (phase = AnalysisPhase.Failed ↔ sB last = false)
      ∧ phase ≠ AnalysisPhase.Inconclusive := by
  rw [processResponse_extracted E metric result c0 cs (init ++ [last])
    (cellsUnder_ne_nil _ _ init last hcells) hcalc hcells]
  rw [evaluateConditions_flags E metric _ _ (some sp) none _ (fun h => hS h.1)
    (compileCondition_ok E _ sp hS hSc) (by rw [hF]; exact compileCondition_empty E)
    (evalLoop_last E metric (some sp) none sB (fun _ => false) init last
      (fun _ => hSr) (fun h => absurd hF h))]
  cases hs : sB last <;> simp [tieBreak, reducePhase, stepFlags, hS, hF, hs]

/-- C3: with an empty success condition and a non-empty failure condition that
compiles and gives a boolean on every extracted value, the success flag is the
negation of the failure flag: the phase of `processResponse` is `Failed` when
the last value satisfies the failure condition and `Successful` otherwise, so
it is never `Inconclusive`. -/
theorem processResponse_failure_only {P : Type} (E : ExprEngine P) (metric : Metric)
    (result : QueryResult) (c0 : Calculation) (cs : List Calculation)
    (init : List Int) (last : Int) (fp : P) (fB : Int → Bool)
    (hcalc : result.Query.Calculations = c0 :: cs)
    (hcells : cellsUnder (lookupKey c0) result.Data.Results = (init ++ [last]).map GoValue.int)
    (hS : metric.SuccessCondition = "") (hF : metric.FailureCondition ≠ "")
    (hFc : E.Compile metric.FailureCondition = Except.ok fp)
    (hFr : ∀ v ∈ init ++ [last], E.Run (some fp) v = Except.ok (ExprOutput.bool (fB v))) :
    (∀ flags : Bool × Bool, tieBreak metric flags = (!flags.2, flags.2))
      ∧ ∃ phase, processResponse E metric result
          = GoResult.ret (canonicalRendering (init ++ [last]), phase, none)
        ∧ (phase = AnalysisPhase.Failed ↔ fB last = true)
        ∧ (phase = AnalysisPhase.Successful ↔ fB last = false)
        ∧ phase ≠ AnalysisPhase.Inconclusive := by
  refine ⟨fun flags => by simp [tieBreak, hS, hF], ?_⟩
  rw [processResponse_extracted E metric result c0 cs (init ++ [last])
    (cellsUnder_ne_nil _ _ init last hcells) hcalc hcells]
  rw [evaluateConditions_flags E metric _ _ none (some fp) _ (fun h => hF h.2)
    (by rw [hS]; exact compileCondition_empty E) (compileCondition_ok E _ fp hF hFc)
    (evalLoop_last E metric none (some fp) (fun _ => false) fB init last
      (fun h => absurd hS h) (fun _ => hFr))]
  cases hf : fB last <;> simp [tieBreak, reducePhase, stepFlags, hS, hF, hf]

/-- C4: when extraction succeeds (at least one row, at least one calculation,
an integer under the lookup key in every row) and both conditions are empty,
`processResponse` returns phase `Successful` and no error, whatever the
extracted values are. -/
theorem processResponse_no_conditions {P : Type} (E : ExprEngine P) (metric : Metric)
    (result : QueryResult) (c0 : Calculation) (cs : List Calculation) (vs : List Int)
    (hrows : result.Data.Results ≠ [])
    (hcalc : result.Query.Calculations = c0 :: cs)
    (hcells : cellsUnder (lookupKey c0) result.Data.Results = vs.map GoValue.int)
    (hS : metric.SuccessCondition = "") (hF : metric.FailureCondition = "") :
    processResponse E metric result
      = GoResult.ret (canonicalRendering vs, AnalysisPhase.Successful, none) := by
  rw [processResponse_extracted E metric result c0 cs vs hrows hcalc hcells]
  simp [evaluateConditions, hS, hF]

/-- C5: with at least one row and a first calculation whose lookup key is
`op(column)` when it has a column and `op` otherwise, when the rows hold the
integers `vs` under that key, in row order, the value string of
`processResponse` is `[` followed by the base-10 texts of `vs` joined by a
comma and a space, followed by `]`, with one entry per row, for every pair of
conditions and whatever the later calculations are. -/
theorem processResponse_value_string {P : Type} (E : ExprEngine P) (metric : Metric)
    (result : QueryResult) (c0 : Calculation) (cs : List Calculation) (key : String)
    (vs : List Int)
    (hrows : 1 ≤ result.Data.Results.length)
    (hcalc : result.Query.Calculations = c0 :: cs)
    (hkey : key = match c0.Column with
      | some column => c0.Op ++ "(" ++ column ++ ")"
      | none => c0.Op)
    (hcells : (result.Data.Results.map fun row => mapIndex row.Data key) = vs.map GoValue.int) :
    ∃ phase err, processResponse E metric result
        = GoResult.ret ("[" ++ ", ".intercalate (vs.map fun v => toString v) ++ "]", phase, err)
      ∧ vs.length = result.Data.Results.length := by
  have hk : key = lookupKey c0 := hkey
  subst hk
  have hne : result.Data.Results ≠ [] := by
    intro h
    rw [h] at hrows
    simp at hrows
  refine ⟨(evaluateConditions E metric vs (canonicalRendering vs)).2.1,
    (evaluateConditions E metric vs (canonicalRendering vs)).2.2, ?_, ?_⟩
  · rw [processResponse_extracted E metric result c0 cs vs hne hcalc hcells]
    have h1 := evaluateConditions_fst E metric vs (canonicalRendering vs)
    have h2 : evaluateConditions E metric vs (canonicalRendering vs)
        = ((evaluateConditions E metric vs (canonicalRendering vs)).1,
           (evaluateConditions E metric vs (canonicalRendering vs)).2.1,
           (evaluateConditions E metric vs (canonicalRendering vs)).2.2) := rfl
    rw [h2, h1]
    rfl
  · have := congrArg List.length hcells
    simpa using this.symm

/-- C1 at the scenario of `TestRunSuccessfully`: rows 210 and 250 with
`result < 300` and `result > 310` give `[210, 250]` and phase `Successful`. -/
theorem processResponse_both_conditions_witness :
    processResponse miniExpr { SuccessCondition := "result < 300", FailureCondition := "result > 310" }
      mockQueryResult = GoResult.ret ("[210, 250]", AnalysisPhase.Successful, none) :=
  (processResponse_both_conditions miniExpr
    { SuccessCondition := "result < 300", FailureCondition := "result > 310" } mockQueryResult
    { Op := "P99", Column := some "duration_ms" } [] [210] 250
    (MiniProgram.less 300) (MiniProgram.greater 310)
    (fun v => decide (v < 300)) (fun v => decide (v > 310))
    rfl (by decide) (by decide) (by decide) rfl rfl (fun _ _ => rfl) (fun _ _ => rfl)).trans
    (by decide)

/-- C2 at rows 210 and 250 with the success condition `result > 310` alone:
the last value does not satisfy it and the phase is `Failed`. -/
theorem processResponse_success_only_witness :
    ∃ phase, processResponse miniExpr { SuccessCondition := "result > 310" } mockQueryResult
        = GoResult.ret (canonicalRendering ([210] ++ [250]), phase, none)
      ∧ (phase = AnalysisPhase.Successful ↔ decide ((250 : Int) > 310) = true)
      ∧ (phase = AnalysisPhase.Failed ↔ decide ((250 : Int) > 310) = false)
      ∧ phase ≠ AnalysisPhase.Inconclusive :=
  processResponse_success_only miniExpr { SuccessCondition := "result > 310" } mockQueryResult
    { Op := "P99", Column := some "duration_ms" } [] [210] 250
    (MiniProgram.greater 310) (fun v => decide (v > 310))
    rfl (by decide) (by decide) rfl rfl (fun _ _ => rfl)

/-- C3 at the scenario of the claim: rows 210 and 250 with the failure
condition `result > 240` alone give phase `Failed`. -/
theorem processResponse_failure_only_witness :
    (∃ phase, processResponse miniExpr { FailureCondition := "result > 240" } mockQueryResult
          = GoResult.ret (canonicalRendering ([210] ++ [250]), phase, none)
        ∧ (phase = AnalysisPhase.Failed ↔ decide ((250 : Int) > 240) = true)
        ∧ (phase = AnalysisPhase.Successful ↔ decide ((250 : Int) > 240) = false)
        ∧ phase ≠ AnalysisPhase.Inconclusive)
      ∧ processResponse miniExpr { FailureCondition := "result > 240" } mockQueryResult
        = GoResult.ret ("[210, 250]", AnalysisPhase.Failed, none) :=
  ⟨(processResponse_failure_only miniExpr { FailureCondition := "result > 240" } mockQueryResult
      { Op := "P99", Column := some "duration_ms" } [] [210] 250
      (MiniProgram.greater 240) (fun v => decide (v > 240))
      rfl (by decide) rfl (by decide) rfl (fun _ _ => rfl)).2,
    by decide⟩

/-- C4 at rows 210 and 250 with no condition: phase `Successful`. -/
theorem processResponse_no_conditions_witness :
    processResponse miniExpr {} mockQueryResult
      = GoResult.ret ("[210, 250]", AnalysisPhase.Successful, none) :=
  (processResponse_no_conditions miniExpr {} mockQueryResult
    { Op := "P99", Column := some "duration_ms" } [] [210, 250]
    (by decide) rfl (by decide) rfl rfl).trans (by decide)

/-- C5 at the two examples of the claim: the single row 210 under
`P99(duration_ms)` gives `[210]`, and rows 210 and 250 give `[210, 250]`. -/
theorem processResponse_value_string_witness :
    (∃ phase err, processResponse miniExpr {}
          { Query := mockQuery, Data := { Results := [mockRow (GoValue.int 210)] } }
        = GoResult.ret ("[" ++ ", ".intercalate ([(210 : Int)].map fun v => toString v) ++ "]", phase, err)
      ∧ [(210 : Int)].length = 1)
    ∧ "[" ++ ", ".intercalate ([(210 : Int)].map fun v => toString v) ++ "]" = "[210]"
    ∧ (∃ phase err, processResponse miniExpr {} mockQueryResult
        = GoResult.ret ("[" ++ ", ".intercalate ([(210 : Int), 250].map fun v => toString v) ++ "]",
            phase, err)
      ∧ [(210 : Int), 250].length = 2)
    ∧ "[" ++ ", ".intercalate ([(210 : Int), 250].map fun v => toString v) ++ "]" = "[210, 250]" :=
  ⟨processResponse_value_string miniExpr {}
      { Query := mockQuery, Data := { Results := [mockRow (GoValue.int 210)] } }
      { Op := "P99", Column := some "duration_ms" } [] "P99(duration_ms)" [210]
      (by decide) rfl (by decide) (by decide),
    by decide,
    processResponse_value_string miniExpr {} mockQueryResult
      { Op := "P99", Column := some "duration_ms" } [] "P99(duration_ms)" [210, 250]
      (by decide) rfl (by decide) (by decide),
    by decide⟩

/-! ## Lemmas on `Run` -/

theorem ensureQueryID_cached {σ : Type} (H : Host σ) (p : HoneycombProvider) (w : World σ)
    (hp : p.queryID ≠ "") : ensureQueryID H p w = (Except.ok (), p, w) := by
  simp [ensureQueryID, hp]

theorem ensureQueryID_error {σ : Type} (H : Host σ) (p : HoneycombProvider) (w : World σ)
    (err : GoError) (hp : p.queryID = "")
    (hc : (H.api.CreateQuery p.rawQuery p.dataset w.ext).1 = Except.error err) :
    ensureQueryID H p w = (Except.error err, p,
      { ext := (H.api.CreateQuery p.rawQuery p.dataset w.ext).2,
        calls := w.calls ++ [Call.CreateQuery p.rawQuery p.dataset] }) := by
  unfold ensureQueryID
  rw [if_pos hp]
  generalize H.api.CreateQuery p.rawQuery p.dataset w.ext = r at hc
  obtain ⟨r1, r2⟩ := r
  simp only at hc
  subst hc
  rfl

theorem ensureQueryID_calls {σ : Type} (H : Host σ) (p p1 : HoneycombProvider) (w w1 : World σ)
    (r : Except GoError Unit) (h : ensureQueryID H p w = (r, p1, w1)) :
    w1.calls = w.calls ∨ w1.calls = w.calls ++ [Call.CreateQuery p.rawQuery p.dataset] := by
  unfold ensureQueryID at h
  split at h
  · split at h
    · simp only [Prod.mk.injEq] at h
      right
      rw [← h.2.2]
    · simp only [Prod.mk.injEq] at h
      right
      rw [← h.2.2]
  · simp only [Prod.mk.injEq] at h
    left
    rw [← h.2.2]

theorem Run_ensure_error {σ P : Type} (H : Host σ) (E : ExprEngine P) (p p1 : HoneycombProvider)
    (metric : Metric) (w w1 : World σ) (err : GoError)
    (hq : ensureQueryID H p { w with ext := (H.MetaNow w.ext).2 } = (Except.error err, p1, w1)) :
    Run H E p metric w
      = (GoResult.ret {
            Phase := AnalysisPhase.Error, Message := err,
            StartedAt := some (H.MetaNow w.ext).1, FinishedAt := some (H.MetaNow w1.ext).1,
            Value := "" },
          p1, { w1 with ext := (H.MetaNow w1.ext).2 }) := by
  simp only [Run, hq, returnError, MarkMeasurementError]

theorem Run_resolve_error {σ P : Type} (H : Host σ) (E : ExprEngine P) (p p1 : HoneycombProvider)
    (metric : Metric) (w w1 : World σ) (err : GoError)
    (hq : ensureQueryID H p { w with ext := (H.MetaNow w.ext).2 } = (Except.ok (), p1, w1))
    (hg : (H.api.GetQueryResult p1.queryID p1.dataset w1.ext).1 = Except.error err) :
    Run H E p metric w
      = (GoResult.ret {
            Phase := AnalysisPhase.Error, Message := err,
            StartedAt := some (H.MetaNow w.ext).1,
            FinishedAt := some (H.MetaNow (H.api.GetQueryResult p1.queryID p1.dataset w1.ext).2).1,
            Value := "" },
          p1, { ext := (H.MetaNow (H.api.GetQueryResult p1.queryID p1.dataset w1.ext).2).2,
                calls := w1.calls ++ [Call.GetQueryResult p1.queryID p1.dataset] }) := by
  simp only [Run, hq]
  generalize H.api.GetQueryResult p1.queryID p1.dataset w1.ext = r at hg
  obtain ⟨r1, r2⟩ := r
  simp only at hg
  subst hg
  simp only [returnError, MarkMeasurementError]

/-- The measurement that `Run` builds from what `processResponse` returned. -/
theorem Run_resolved {σ P : Type} (H : Host σ) (E : ExprEngine P) (p p1 : HoneycombProvider)
    (metric : Metric) (w w1 : World σ) (result : QueryResult)
    (hq : ensureQueryID H p { w with ext := (H.MetaNow w.ext).2 } = (Except.ok (), p1, w1))
    (hg : (H.api.GetQueryResult p1.queryID p1.dataset w1.ext).1 = Except.ok result) :
    (Run H E p metric w).1
        = (match processResponse E metric result with
          | GoResult.panic msg => GoResult.panic msg
          | GoResult.ret (_, _, some err) =>
            GoResult.ret {
              Phase := AnalysisPhase.Error, Message := err,
              StartedAt := some (H.MetaNow w.ext).1,
              FinishedAt := some (H.MetaNow (H.api.GetQueryResult p1.queryID p1.dataset w1.ext).2).1,
              Value := "" }
          | GoResult.ret (valueStr, newStatus, none) =>
            GoResult.ret {
              Phase := newStatus, Message := "",
              StartedAt := some (H.MetaNow w.ext).1,
              FinishedAt := some (H.MetaNow (H.api.GetQueryResult p1.queryID p1.dataset w1.ext).2).1,
              Value := valueStr })
      ∧ (Run H E p metric w).2.1 = p1
      ∧ (Run H E p metric w).2.2.calls
        = w1.calls ++ [Call.GetQueryResult p1.queryID p1.dataset, Call.processResponse] := by
  simp only [Run, hq]
  generalize H.api.GetQueryResult p1.queryID p1.dataset w1.ext = r at hg
  obtain ⟨r1, r2⟩ := r
  simp only at hg
  subst hg
  simp only
  split <;> simp_all [returnError, MarkMeasurementError]

theorem countCreateQuery_append (a b : List Call) :
    countCreateQuery (a ++ b) = countCreateQuery a + countCreateQuery b := by
  simp [countCreateQuery, List.filter_append]

theorem resolvedQueryIDs_append (a b : List Call) :
    resolvedQueryIDs (a ++ b) = resolvedQueryIDs a ++ resolvedQueryIDs b := by
  induction a with
  | nil => simp [resolvedQueryIDs]
  | cons c rest ih =>
    cases c <;> simp [resolvedQueryIDs, ih]

/-- One `Run` on a provider with a cached query ID: the provider is unchanged and
the new calls are one `GetQueryResult` with the cached ID, followed by
`processResponse` when the result arrived. -/
theorem Run_cached {σ P : Type} (H : Host σ) (E : ExprEngine P) (p : HoneycombProvider)
    (metric : Metric) (w : World σ) (hp : p.queryID ≠ "") :
    (Run H E p metric w).2.1 = p
      ∧ ((Run H E p metric w).2.2.calls = w.calls ++ [Call.GetQueryResult p.queryID p.dataset]
        ∨ (Run H E p metric w).2.2.calls
            = w.calls ++ [Call.GetQueryResult p.queryID p.dataset, Call.processResponse]) := by
  have hq := ensureQueryID_cached H p { w with ext := (H.MetaNow w.ext).2 } hp
  cases hg : (H.api.GetQueryResult p.queryID p.dataset (H.MetaNow w.ext).2).1 with
  | error err =>
    rw [Run_resolve_error H E p p metric w _ err hq hg]
    exact ⟨rfl, Or.inl rfl⟩
  | ok result =>
    have h := Run_resolved H E p p metric w _ result hq hg
    exact ⟨h.2.1, Or.inr h.2.2⟩

/-! ## Claims on `Run` -/

/-- C6: for a query result with no rows, whatever its calculations and the
conditions, `processResponse` returns the error `no results returned`, and a
`Run` whose `GetQueryResult` returns that result yields a measurement with
phase `Error`, message `no results returned` and an empty value string. -/
theorem no_results_returned {P : Type} (E : ExprEngine P) (metric : Metric) (result : QueryResult)
    (hrows : result.Data.Results = []) :
    processResponse E metric result
        = GoResult.ret ("", AnalysisPhase.Failed, some "no results returned")
      ∧ ∀ {σ : Type} (H : Host σ) (p p1 : HoneycombProvider) (w w1 : World σ),
          ensureQueryID H p { w with ext := (H.MetaNow w.ext).2 } = (Except.ok (), p1, w1) →
          (H.api.GetQueryResult p1.queryID p1.dataset w1.ext).1 = Except.ok result →
          ∃ m, (Run H E p metric w).1 = GoResult.ret m
            ∧ m.Phase = AnalysisPhase.Error
            ∧ m.Message = "no results returned"
            ∧ m.Value = "" := by
  have hp : processResponse E metric result
      = GoResult.ret ("", AnalysisPhase.Failed, some "no results returned") := by
    simp [processResponse, hrows]
  refine ⟨hp, ?_⟩
  intro σ H p p1 w w1 hq hg
  have h := (Run_resolved H E p p1 metric w w1 result hq hg).1
  rw [hp] at h
  exact ⟨_, h, rfl, rfl, rfl⟩

/-- C6 at `mockEmptyQueryResult` of plugin_test.go, returned by the test double. -/
theorem no_results_returned_witness :
    processResponse miniExpr { SuccessCondition := "result == 300", FailureCondition := "result != 300" }
        mockEmptyQueryResult
        = GoResult.ret ("", AnalysisPhase.Failed, some "no results returned")
      ∧ ∃ m, (Run (mockHost mockEmptyQueryResult none) miniExpr {}
            { SuccessCondition := "result == 300", FailureCondition := "result != 300" }
            { ext := 0 }).1 = GoResult.ret m
          ∧ m.Phase = AnalysisPhase.Error
          ∧ m.Message = "no results returned"
          ∧ m.Value = "" :=
  ⟨(no_results_returned miniExpr _ mockEmptyQueryResult rfl).1,
    (no_results_returned miniExpr _ mockEmptyQueryResult rfl).2
      (mockHost mockEmptyQueryResult none) {} {}
      { ext := 0 } { ext := 1, calls := [Call.CreateQuery "" ""] } rfl rfl⟩

/-- C7, the claim refuted: with rows 210 and 250 and the success condition
`result <`, which does not compile, `processResponse` returns the compile
error with phase `Failed`, and the measurement returned by `Run` has phase
`Error`, not `Failed`. -/
theorem compile_error_measurement_phase_counterexample :
    miniExpr.Compile "result <" = Except.error "unexpected token in: result <"
      ∧ processResponse miniExpr { SuccessCondition := "result <" } mockQueryResult
        = GoResult.ret ("[210, 250]", AnalysisPhase.Failed, some "unexpected token in: result <")
      ∧ (Run (mockHost mockQueryResult none) miniExpr {} { SuccessCondition := "result <" }
          { ext := 0 }).1
        = GoResult.ret ⟨AnalysisPhase.Error, "unexpected token in: result <", some 0, some 1, ""⟩
      ∧ ¬ ∃ m, (Run (mockHost mockQueryResult none) miniExpr {} { SuccessCondition := "result <" }
            { ext := 0 }).1 = GoResult.ret m ∧ m.Phase = AnalysisPhase.Failed := by
  have hrun : (Run (mockHost mockQueryResult none) miniExpr {} { SuccessCondition := "result <" }
      { ext := 0 }).1
      = GoResult.ret ⟨AnalysisPhase.Error, "unexpected token in: result <", some 0, some 1, ""⟩ := by
    decide
  refine ⟨rfl, by decide, hrun, ?_⟩
  rintro ⟨m, hm, hphase⟩
  rw [hrun] at hm
  cases hm
  cases hphase

/-- C7 as amended: an error from submission, from resolution, or returned by
`processResponse` (extraction, compilation, evaluation) gives a measurement
with phase `Error` and the error text as message; and when a non-empty
condition fails to compile after extraction has succeeded, `processResponse`
itself returns the compile error together with phase `Failed`. -/
theorem Run_error_phase {σ P : Type} (H : Host σ) (E : ExprEngine P) (p : HoneycombProvider)
    (metric : Metric) (w : World σ) :
    (∀ err, p.queryID = "" →
        (H.api.CreateQuery p.rawQuery p.dataset (H.MetaNow w.ext).2).1 = Except.error err →
        ∃ m, (Run H E p metric w).1 = GoResult.ret m
          ∧ m.Phase = AnalysisPhase.Error ∧ m.Message = err)
      ∧ (∀ p1 w1 err,
        ensureQueryID H p { w with ext := (H.MetaNow w.ext).2 } = (Except.ok (), p1, w1) →
        (H.api.GetQueryResult p1.queryID p1.dataset w1.ext).1 = Except.error err →
        ∃ m, (Run H E p metric w).1 = GoResult.ret m
          ∧ m.Phase = AnalysisPhase.Error ∧ m.Message = err)
      ∧ (∀ p1 w1 result valueStr phase err,
        ensureQueryID H p { w with ext := (H.MetaNow w.ext).2 } = (Except.ok (), p1, w1) →
        (H.api.GetQueryResult p1.queryID p1.dataset w1.ext).1 = Except.ok result →
        processResponse E metric result = GoResult.ret (valueStr, phase, some err) →
        ∃ m, (Run H E p metric w).1 = GoResult.ret m
          ∧ m.Phase = AnalysisPhase.Error ∧ m.Message = err)
      ∧ (∀ result c0 cs vs err,
        result.Data.Results ≠ [] →
        result.Query.Calculations = c0 :: cs →
        cellsUnder (lookupKey c0) result.Data.Results = vs.map GoValue.int →
        ((metric.SuccessCondition ≠ "" ∧ E.Compile metric.SuccessCondition = Except.error err)
          ∨ ((metric.SuccessCondition = "" ∨ ∃ sp, E.Compile metric.SuccessCondition = Except.ok sp)
            ∧ metric.FailureCondition ≠ "" ∧ E.Compile metric.FailureCondition = Except.error err)) →
        processResponse E metric result
          = GoResult.ret (canonicalRendering vs, AnalysisPhase.Failed, some err)) := by
  refine ⟨?_, ?_, ?_, ?_⟩
  · intro err hp hc
    have hq := ensureQueryID_error H p { w with ext := (H.MetaNow w.ext).2 } err hp hc
    rw [Run_ensure_error H E p p metric w _ err hq]
    exact ⟨_, rfl, rfl, rfl⟩
  · intro p1 w1 err hq hg
    rw [Run_resolve_error H E p p1 metric w w1 err hq hg]
    exact ⟨_, rfl, rfl, rfl⟩
  · intro p1 w1 result valueStr phase err hq hg hpr
    have h := (Run_resolved H E p p1 metric w w1 result hq hg).1
    rw [hpr] at h
    exact ⟨_, h, rfl, rfl⟩
  · intro result c0 cs vs err hrows hcalc hcells hcompile
    rw [processResponse_extracted E metric result c0 cs vs hrows hcalc hcells]
    rcases hcompile with ⟨hS, hSc⟩ | ⟨hS, hF, hFc⟩
    · have h1 := compileCondition_error E _ err hS hSc
      simp only [evaluateConditions, h1]
      rw [if_neg (fun h => hS h.1)]
    · have h2 := compileCondition_error E _ err hF hFc
      rcases hS with hS | ⟨sp, hSc⟩
      · have h1 : compileCondition E metric.SuccessCondition = Except.ok none := by
          rw [hS]; exact compileCondition_empty E
        simp only [evaluateConditions, h1, h2]
        rw [if_neg (fun h => hF h.2)]
      · by_cases hS : metric.SuccessCondition = ""
        · have h1 : compileCondition E metric.SuccessCondition = Except.ok none := by
            rw [hS]; exact compileCondition_empty E
          simp only [evaluateConditions, h1, h2]
          rw [if_neg (fun h => hF h.2)]
        · have h1 := compileCondition_ok E _ sp hS hSc
          simp only [evaluateConditions, h1, h2]
          rw [if_neg (fun h => hF h.2)]

/-- C7 as amended, at the test double: a `CreateQuery` error, a
`GetQueryResult` error and a compile error of the failure condition `result <`
each give phase `Error`, and `processResponse` returns the compile error with
phase `Failed`. -/
theorem Run_error_phase_witness :
    (∃ m, (Run (mockHost mockQueryResult (some "not good")) miniExpr {}
          { FailureCondition := "result <" } { ext := 0 }).1 = GoResult.ret m
        ∧ m.Phase = AnalysisPhase.Error ∧ m.Message = "not good")
      ∧ (∃ m, (Run (mockHost mockQueryResult (some "not good")) miniExpr { queryID := "abc" }
          { FailureCondition := "result <" } { ext := 0 }).1 = GoResult.ret m
        ∧ m.Phase = AnalysisPhase.Error ∧ m.Message = "not good")
      ∧ (∃ m, (Run (mockHost mockQueryResult none) miniExpr {}
          { FailureCondition := "result <" } { ext := 0 }).1 = GoResult.ret m
        ∧ m.Phase = AnalysisPhase.Error ∧ m.Message = "unexpected token in: result <")
      ∧ processResponse miniExpr { FailureCondition := "result <" } mockQueryResult
        = GoResult.ret (canonicalRendering [210, 250], AnalysisPhase.Failed,
            some "unexpected token in: result <") :=
  ⟨(Run_error_phase (mockHost mockQueryResult (some "not good")) miniExpr {}
      { FailureCondition := "result <" } { ext := 0 }).1 "not good" rfl rfl,
    (Run_error_phase (mockHost mockQueryResult (some "not good")) miniExpr { queryID := "abc" }
      { FailureCondition := "result <" } { ext := 0 }).2.1
      { queryID := "abc" } { ext := 1 } "not good" rfl rfl,
    (Run_error_phase (mockHost mockQueryResult none) miniExpr {}
      { FailureCondition := "result <" } { ext := 0 }).2.2.1
      {} { ext := 1, calls := [Call.CreateQuery "" ""] } mockQueryResult
      "[210, 250]" AnalysisPhase.Failed "unexpected token in: result <" rfl rfl (by decide),
    (Run_error_phase (mockHost mockQueryResult none) miniExpr {}
      { FailureCondition := "result <" } { ext := 0 }).2.2.2
      mockQueryResult { Op := "P99", Column := some "duration_ms" } [] [210, 250]
      "unexpected token in: result <" (by decide) rfl (by decide)
      (Or.inr ⟨Or.inl rfl, by decide, rfl⟩)⟩

/-- C9: when `CreateQuery` returns an error (no query ID being cached), or
`GetQueryResult` returns an error, `Run` returns a measurement with phase
`Error`, the error text as message, an empty value string and both
timestamps set, and `processResponse` is not among the calls of that `Run`. -/
theorem Run_api_error {σ P : Type} (H : Host σ) (E : ExprEngine P) (p : HoneycombProvider)
    (metric : Metric) (w : World σ) (err : GoError)
    (h : (p.queryID = ""
          ∧ (H.api.CreateQuery p.rawQuery p.dataset (H.MetaNow w.ext).2).1 = Except.error err)
        ∨ ∃ p1 w1,
          ensureQueryID H p { w with ext := (H.MetaNow w.ext).2 } = (Except.ok (), p1, w1)
          ∧ (H.api.GetQueryResult p1.queryID p1.dataset w1.ext).1 = Except.error err) :
    ∃ m new, (Run H E p metric w).1 = GoResult.ret m
      ∧ m.Phase = AnalysisPhase.Error
      ∧ m.Message = err
      ∧ m.Value = ""
      ∧ m.StartedAt.isSome = true
      ∧ m.FinishedAt.isSome = true
      ∧ (Run H E p metric w).2.2.calls = w.calls ++ new
      ∧ Call.processResponse ∉ new := by
  rcases h with ⟨hp, hc⟩ | ⟨p1, w1, hq, hg⟩
  · have hq := ensureQueryID_error H p { w with ext := (H.MetaNow w.ext).2 } err hp hc
    rw [Run_ensure_error H E p p metric w _ err hq]
    exact ⟨_, [Call.CreateQuery p.rawQuery p.dataset], rfl, rfl, rfl, rfl, rfl, rfl, rfl,
      by simp⟩
  · rw [Run_resolve_error H E p p1 metric w w1 err hq hg]
    rcases ensureQueryID_calls H p p1 _ w1 _ hq with hcalls | hcalls
    · refine ⟨_, [Call.GetQueryResult p1.queryID p1.dataset], rfl, rfl, rfl, rfl, rfl, rfl, ?_,
        by simp⟩
      simp only [hcalls]
    · refine ⟨_, [Call.CreateQuery p.rawQuery p.dataset, Call.GetQueryResult p1.queryID p1.dataset],
        rfl, rfl, rfl, rfl, rfl, rfl, ?_, by simp⟩
      simp only [hcalls, List.append_assoc, List.singleton_append]

/-- C9 at `TestRunWithQueryError` of plugin_test.go: the test double returns
the error `not good` from `CreateQuery`. -/
theorem Run_api_error_witness :
    ∃ m new, (Run (mockHost mockQueryResult (some "not good")) miniExpr {}
          { SuccessCondition := "result == 300", FailureCondition := "result != 300" }
          { ext := 0 }).1 = GoResult.ret m
      ∧ m.Phase = AnalysisPhase.Error
      ∧ m.Message = "not good"
      ∧ m.Value = ""
      ∧ m.StartedAt.isSome = true
      ∧ m.FinishedAt.isSome = true
      ∧ (Run (mockHost mockQueryResult (some "not good")) miniExpr {}
          { SuccessCondition := "result == 300", FailureCondition := "result != 300" }
          { ext := 0 }).2.2.calls = [] ++ new
      ∧ Call.processResponse ∉ new :=
  Run_api_error (mockHost mockQueryResult (some "not good")) miniExpr {}
    { SuccessCondition := "result == 300", FailureCondition := "result != 300" } { ext := 0 }
    "not good" (Or.inl ⟨rfl, rfl⟩)

theorem runMany_cached {σ P : Type} (H : Host σ) (E : ExprEngine P) (p : HoneycombProvider)
    (hp : p.queryID ≠ "") (metrics : List Metric) :
    ∀ w : World σ, (runMany H E metrics p w).1 = p
      ∧ ∃ new, (runMany H E metrics p w).2.calls = w.calls ++ new
        ∧ countCreateQuery new = 0
        ∧ ∀ queryID ∈ resolvedQueryIDs new, queryID = p.queryID := by
  induction metrics with
  | nil =>
    intro w
    exact ⟨rfl, [], by simp [runMany], rfl, by simp [resolvedQueryIDs]⟩
  | cons metric rest ih =>
    intro w
    obtain ⟨hprov, hcalls⟩ := Run_cached H E p metric w hp
    have hnew : ∃ a, (Run H E p metric w).2.2.calls = w.calls ++ a
        ∧ countCreateQuery a = 0 ∧ ∀ queryID ∈ resolvedQueryIDs a, queryID = p.queryID := by
      rcases hcalls with hc | hc
      · exact ⟨_, hc, rfl, by simp [resolvedQueryIDs]⟩
      · exact ⟨_, hc, rfl, by simp [resolvedQueryIDs]⟩
    obtain ⟨a, ha, hacount, haids⟩ := hnew
    unfold runMany
    split
    · exact ⟨hprov, a, ha, hacount, haids⟩
    · rw [hprov]
      obtain ⟨hp2, b, hb, hbcount, hbids⟩ := ih (Run H E p metric w).2.2
      refine ⟨hp2, a ++ b, ?_, ?_, ?_⟩
      · rw [hb, ha, List.append_assoc]
      · rw [countCreateQuery_append, hacount, hbcount]
      · intro queryID hmem
        rw [resolvedQueryIDs_append, List.mem_append] at hmem
        rcases hmem with hmem | hmem
        · exact haids queryID hmem
        · exact hbids queryID hmem

/-- C10: on a provider whose cached query ID is non-empty, `Run` makes no
`CreateQuery` call and leaves the provider, hence the cached query ID,
unchanged, whatever `GetQueryResult` and `processResponse` return; and any
number of consecutive `Run`s make no `CreateQuery` call and pass that same
query ID to every `GetQueryResult` call. -/
theorem Run_cached_query_id {σ P : Type} (H : Host σ) (E : ExprEngine P) (p : HoneycombProvider)
    (w : World σ) (hp : p.queryID ≠ "") :
    (∀ metric, (Run H E p metric w).2.1.queryID = p.queryID
        ∧ ∃ new, (Run H E p metric w).2.2.calls = w.calls ++ new
          ∧ countCreateQuery new = 0
          ∧ resolvedQueryIDs new = [p.queryID])
      ∧ (∀ metrics, (runMany H E metrics p w).1.queryID = p.queryID
        ∧ ∃ new, (runMany H E metrics p w).2.calls = w.calls ++ new
          ∧ countCreateQuery new = 0
          ∧ ∀ queryID ∈ resolvedQueryIDs new, queryID = p.queryID) := by
  constructor
  · intro metric
    obtain ⟨hprov, hcalls⟩ := Run_cached H E p metric w hp
    refine ⟨by rw [hprov], ?_⟩
    rcases hcalls with hc | hc
    · exact ⟨_, hc, rfl, rfl⟩
    · exact ⟨_, hc, rfl, rfl⟩
  · intro metrics
    obtain ⟨hprov, hnew⟩ := runMany_cached H E p hp metrics w
    exact ⟨by rw [hprov], hnew⟩

/-- C10 at a provider with the cached query ID `abc`, and the trace of three
consecutive `Run`s on it. -/
theorem Run_cached_query_id_witness :
    ((Run (mockHost mockQueryResult none) miniExpr { queryID := "abc" }
            { SuccessCondition := "result <" } { ext := 0 }).2.1.queryID = "abc"
        ∧ ∃ new, (Run (mockHost mockQueryResult none) miniExpr { queryID := "abc" }
              { SuccessCondition := "result <" } { ext := 0 }).2.2.calls = [] ++ new
          ∧ countCreateQuery new = 0
          ∧ resolvedQueryIDs new = ["abc"])
      ∧ ((runMany (mockHost mockQueryResult none) miniExpr
            [{}, { SuccessCondition := "result <" }, { FailureCondition := "result > 240" }]
            { queryID := "abc" } { ext := 0 }).1.queryID = "abc"
        ∧ ∃ new, (runMany (mockHost mockQueryResult none) miniExpr
              [{}, { SuccessCondition := "result <" }, { FailureCondition := "result > 240" }]
              { queryID := "abc" } { ext := 0 }).2.calls = [] ++ new
          ∧ countCreateQuery new = 0
          ∧ ∀ queryID ∈ resolvedQueryIDs new, queryID = "abc")
      ∧ (runMany (mockHost mockQueryResult none) miniExpr
          [{}, { SuccessCondition := "result <" }, { FailureCondition := "result > 240" }]
          { queryID := "abc" } { ext := 0 }).2.calls
        = [Call.GetQueryResult "abc" "", Call.processResponse,
           Call.GetQueryResult "abc" "", Call.processResponse,
           Call.GetQueryResult "abc" "", Call.processResponse] :=
  ⟨(Run_cached_query_id (mockHost mockQueryResult none) miniExpr { queryID := "abc" } { ext := 0 }
      (by decide)).1 { SuccessCondition := "result <" },
    (Run_cached_query_id (mockHost mockQueryResult none) miniExpr { queryID := "abc" } { ext := 0 }
      (by decide)).2
      [{}, { SuccessCondition := "result <" }, { FailureCondition := "result > 240" }],
    by decide⟩

/-! ## Extraction of a cell that is not an `int` -/

theorem extractValues_panics {op : String} {rows : List ResultsDatum} {row : ResultsDatum}
    (hmem : row ∈ rows) (hcell : ∀ v, mapIndex row.Data op ≠ GoValue.int v) :
    ∃ msg, extractValues op rows = GoResult.panic msg := by
  induction rows with
  | nil => simp at hmem
  | cons r rest ih =>
    unfold extractValues
    split
    · rename_i v hv
      rcases List.mem_cons.mp hmem with h | h
      · subst h
        exact absurd hv (hcell v)
      · obtain ⟨msg, hmsg⟩ := ih h
        rw [hmsg]
        exact ⟨msg, rfl⟩
    · exact ⟨_, rfl⟩

/-- When some row holds a cell that is not an `int` under the lookup key,
`processResponse` panics: no value string, phase or error is returned. -/
theorem processResponse_panics {P : Type} (E : ExprEngine P) (metric : Metric)
    (result : QueryResult) (c0 : Calculation) (cs : List Calculation) (row : ResultsDatum)
    (hcalc : result.Query.Calculations = c0 :: cs)
    (hmem : row ∈ result.Data.Results)
    (hcell : ∀ v, mapIndex row.Data (lookupKey c0) ≠ GoValue.int v) :
    ∃ msg, processResponse E metric result = GoResult.panic msg := by
  have hlen : ¬ result.Data.Results.length = 0 := by
    intro h
    rw [List.length_eq_zero] at h
    rw [h] at hmem
    simp at hmem
  obtain ⟨msg, hmsg⟩ := extractValues_panics hmem hcell
  exact ⟨msg, by simp only [processResponse, hlen, if_false, hcalc, hmsg]⟩

/-- C11, the code at a failing input: with the calculation `P99(duration_ms)`
and one row whose cell under that key is the `float64` 210 (what decoding the
JSON number 210 into an `interface{}` gives), or the `float64` 210.5, or a
string, `processResponse` does not return a type-mismatch error: the unchecked
assertion `resultValue.(int)` panics, and the panic leaves `Run` without a
measurement. -/
theorem processResponse_non_integer_cell_panics :
    processResponse miniExpr { SuccessCondition := "result < 300" }
        { Query := mockQuery, Data := { Results := [mockRow (GoValue.float64 210 0)] } }
        = GoResult.panic "interface conversion: interface \x7b\x7d is float64, not int"
      ∧ processResponse miniExpr { SuccessCondition := "result < 300" }
        { Query := mockQuery,
          Data := { Results := [mockRow (GoValue.int 210), mockRow (GoValue.float64 2105 (-1))] } }
        = GoResult.panic "interface conversion: interface \x7b\x7d is float64, not int"
      ∧ processResponse miniExpr { SuccessCondition := "result < 300" }
        { Query := mockQuery, Data := { Results := [mockRow (GoValue.string "210")] } }
        = GoResult.panic "interface conversion: interface \x7b\x7d is string, not int"
      ∧ (Run (mockHost
            { Query := mockQuery, Data := { Results := [mockRow (GoValue.float64 210 0)] } } none)
          miniExpr {} { SuccessCondition := "result < 300" } { ext := 0 }).1
        = GoResult.panic "interface conversion: interface \x7b\x7d is float64, not int" := by
  refine ⟨by decide, by decide, by decide, by decide⟩

/-! ## The poll loop -/

theorem pollTick_tolerated (J : JsonDecoder) (tick : TickResponse) (qr : QueryResult)
    (h : tick.isTolerated J = true) : pollTick J tick qr = TickOutcome.again qr := by
  cases tick with
  | doError err => simp [TickResponse.isTolerated] at h
  | readError err => simp [TickResponse.isTolerated] at h
  | response StatusCode bodyBytes =>
    simp only [TickResponse.isTolerated, Bool.and_eq_true, decide_eq_true_eq] at h
    obtain ⟨hstatus, hdecode⟩ := h
    cases he : J.unmarshalErrorResponse bodyBytes with
    | error err => rw [he] at hdecode; simp at hdecode
    | ok e => simp [pollTick, hstatus, he]

theorem pollLoop_tolerated (J : JsonDecoder) (ticks : List TickResponse) (qr : QueryResult)
    (h : ∀ tick ∈ ticks, tick.isTolerated J = true) :
    pollLoop J ticks qr = Except.error "timed out waiting for query result" := by
  induction ticks with
  | nil => rfl
  | cons tick rest ih =>
    simp only [pollLoop, pollTick_tolerated J tick qr (h tick (List.mem_cons_self _ _))]
    exact ih (fun t ht => h t (List.mem_cons_of_mem _ ht))

theorem pollLoop_tolerated_prefix (J : JsonDecoder) (pre rest : List TickResponse)
    (qr : QueryResult) (h : ∀ tick ∈ pre, tick.isTolerated J = true) :
    pollLoop J (pre ++ rest) qr = pollLoop J rest qr := by
  induction pre with
  | nil => rfl
  | cons tick more ih =>
    simp only [List.cons_append, pollLoop,
      pollTick_tolerated J tick qr (h tick (List.mem_cons_self _ _))]
    exact ih (fun t ht => h t (List.mem_cons_of_mem _ ht))

/-- When the two requests are created and the POST is answered,
`GetQueryResult` returns what the poll loop returns on the ticks of the
polling location, started from the zero `QueryResult`. -/
theorem GetQueryResult_polls (c : honeycombClient) (J : JsonDecoder)
    (queryID dataset location : String)
    (hid : queryID ≠ "")
    (hpost : c.client.NewRequest "POST"
        (HoneycombURL ++ "/1/query_results/" ++ (if dataset = "" then "__all__" else dataset))
      = Except.ok ())
    (hdo : c.client.Post
        (HoneycombURL ++ "/1/query_results/" ++ (if dataset = "" then "__all__" else dataset))
        { QueryID := queryID, DisableSeries := false, Limit := 10000 }
      = Except.ok location)
    (hget : c.client.NewRequest "GET" (HoneycombURL ++ location) = Except.ok ()) :
    c.GetQueryResult J queryID dataset
      = pollLoop J (c.client.Ticks (HoneycombURL ++ location)) {} := by
  simp only [honeycombClient.GetQueryResult, hid, if_false, hpost, hdo, hget]

/-- C12, the claim refuted: a tick answered with status 502 and an HTML body
does not keep the loop polling: decoding the body as an `errorResponse` fails
and the tick returns that error, so a backend that answers every tick with
this response makes `GetQueryResult` fail with the unmarshal error, not with
the timeout error. -/
theorem non200_tick_body_not_json_counterexample :
    (∀ tick ∈ List.replicate 10 (TickResponse.response 502 "<html>502 Bad Gateway</html>"),
        tick.isNon200 = true)
      ∧ pollTick miniJson (TickResponse.response 502 "<html>502 Bad Gateway</html>") {}
        = TickOutcome.fail
            "failed to unmarshal response body: invalid character '<' looking for beginning of value"
      ∧ (scriptedClient "/1/query_results/test/abc"
            (List.replicate 10 (TickResponse.response 502 "<html>502 Bad Gateway</html>"))).GetQueryResult
          miniJson "abc" "test"
        = Except.error
            "failed to unmarshal response body: invalid character '<' looking for beginning of value"
      ∧ (scriptedClient "/1/query_results/test/abc"
            (List.replicate 10 (TickResponse.response 502 "<html>502 Bad Gateway</html>"))).GetQueryResult
          miniJson "abc" "test"
        ≠ Except.error "timed out waiting for query result" := by
  have hres : (scriptedClient "/1/query_results/test/abc"
        (List.replicate 10 (TickResponse.response 502 "<html>502 Bad Gateway</html>"))).GetQueryResult
      miniJson "abc" "test"
      = Except.error
          "failed to unmarshal response body: invalid character '<' looking for beginning of value" :=
    rfl
  refine ⟨by decide, by decide, hres, ?_⟩
  rw [hres]
  intro h
  have h2 := Except.error.inj h
  revert h2
  decide

/-- C12 as amended: a tick whose status is not 200 and whose body decodes as an
`errorResponse` returns neither a result nor an error, and the loop keeps
polling: it goes on with the remaining ticks and the same `qr`, through any
run of such ticks; a tick whose status is not 200 and whose body does not
decode returns the unmarshal error, which ends the loop and `GetQueryResult`
with that error; so a backend that answers every tick of the window with a
status other than 200 and a decodable body makes `GetQueryResult` fail with
the timeout error. -/
theorem pollTick_non200 (J : JsonDecoder) :
    (∀ StatusCode bodyBytes qr e, StatusCode ≠ 200 →
        J.unmarshalErrorResponse bodyBytes = Except.ok e →
        pollTick J (TickResponse.response StatusCode bodyBytes) qr = TickOutcome.again qr)
      ∧ (∀ StatusCode bodyBytes qr err, StatusCode ≠ 200 →
        J.unmarshalErrorResponse bodyBytes = Except.error err →
        pollTick J (TickResponse.response StatusCode bodyBytes) qr
          = TickOutcome.fail ("failed to unmarshal response body: " ++ err))
      ∧ (∀ (c : honeycombClient) queryID dataset location,
        queryID ≠ "" →
        c.client.NewRequest "POST"
            (HoneycombURL ++ "/1/query_results/" ++ (if dataset = "" then "__all__" else dataset))
          = Except.ok () →
        c.client.Post
            (HoneycombURL ++ "/1/query_results/" ++ (if dataset = "" then "__all__" else dataset))
            { QueryID := queryID, DisableSeries := false, Limit := 10000 }
          = Except.ok location →
        c.client.NewRequest "GET" (HoneycombURL ++ location) = Except.ok () →
        (∀ tick ∈ c.client.Ticks (HoneycombURL ++ location), tick.isTolerated J = true) →
        c.GetQueryResult J queryID dataset = Except.error "timed out waiting for query result")
      ∧ (∀ StatusCode bodyBytes rest qr e, StatusCode ≠ 200 →
        J.unmarshalErrorResponse bodyBytes = Except.ok e →
        pollLoop J (TickResponse.response StatusCode bodyBytes :: rest) qr = pollLoop J rest qr)
      ∧ (∀ StatusCode bodyBytes rest qr err, StatusCode ≠ 200 →
        J.unmarshalErrorResponse bodyBytes = Except.error err →
        pollLoop J (TickResponse.response StatusCode bodyBytes :: rest) qr
          = Except.error ("failed to unmarshal response body: " ++ err))
      ∧ (∀ (c : honeycombClient) queryID dataset location pre rest,
        queryID ≠ "" →
        c.client.NewRequest "POST"
            (HoneycombURL ++ "/1/query_results/" ++ (if dataset = "" then "__all__" else dataset))
          = Except.ok () →
        c.client.Post
            (HoneycombURL ++ "/1/query_results/" ++ (if dataset = "" then "__all__" else dataset))
            { QueryID := queryID, DisableSeries := false, Limit := 10000 }
          = Except.ok location →
        c.client.NewRequest "GET" (HoneycombURL ++ location) = Except.ok () →
        c.client.Ticks (HoneycombURL ++ location) = pre ++ rest →
        (∀ tick ∈ pre, tick.isTolerated J = true) →
        c.GetQueryResult J queryID dataset = pollLoop J rest {})
      ∧ (∀ (c : honeycombClient) queryID dataset location pre StatusCode bodyBytes rest err,
        queryID ≠ "" →
        c.client.NewRequest "POST"
            (HoneycombURL ++ "/1/query_results/" ++ (if dataset = "" then "__all__" else dataset))
          = Except.ok () →
        c.client.Post
            (HoneycombURL ++ "/1/query_results/" ++ (if dataset = "" then "__all__" else dataset))
            { QueryID := queryID, DisableSeries := false, Limit := 10000 }
          = Except.ok location →
        c.client.NewRequest "GET" (HoneycombURL ++ location) = Except.ok () →
        c.client.Ticks (HoneycombURL ++ location)
          = pre ++ TickResponse.response StatusCode bodyBytes :: rest →
        (∀ tick ∈ pre, tick.isTolerated J = true) →
        StatusCode ≠ 200 →
        J.unmarshalErrorResponse bodyBytes = Except.error err →
        c.GetQueryResult J queryID dataset
          = Except.error ("failed to unmarshal response body: " ++ err)) := by
  have htick_again : ∀ StatusCode bodyBytes qr e, StatusCode ≠ 200 →
      J.unmarshalErrorResponse bodyBytes = Except.ok e →
      pollTick J (TickResponse.response StatusCode bodyBytes) qr = TickOutcome.again qr := by
    intro StatusCode bodyBytes qr e hstatus hdecode
    simp [pollTick, hstatus, hdecode]
  have htick_fail : ∀ StatusCode bodyBytes qr err, StatusCode ≠ 200 →
      J.unmarshalErrorResponse bodyBytes = Except.error err →
      pollTick J (TickResponse.response StatusCode bodyBytes) qr
        = TickOutcome.fail ("failed to unmarshal response body: " ++ err) := by
    intro StatusCode bodyBytes qr err hstatus hdecode
    simp [pollTick, hstatus, hdecode]
  refine ⟨htick_again, htick_fail, ?_, ?_, ?_, ?_, ?_⟩
  · intro c queryID dataset location hid hpost hdo hget hticks
    rw [GetQueryResult_polls c J queryID dataset location hid hpost hdo hget]
    exact pollLoop_tolerated J _ _ hticks
  · intro StatusCode bodyBytes rest qr e hstatus hdecode
    simp only [pollLoop, htick_again StatusCode bodyBytes qr e hstatus hdecode]
  · intro StatusCode bodyBytes rest qr err hstatus hdecode
    simp only [pollLoop, htick_fail StatusCode bodyBytes qr err hstatus hdecode]
  · intro c queryID dataset location pre rest hid hpost hdo hget hticks hpre
    rw [GetQueryResult_polls c J queryID dataset location hid hpost hdo hget, hticks]
    exact pollLoop_tolerated_prefix J pre rest {} hpre
  · intro c queryID dataset location pre StatusCode bodyBytes rest err hid hpost hdo hget hticks
      hpre hstatus hdecode
    rw [GetQueryResult_polls c J queryID dataset location hid hpost hdo hget, hticks,
      pollLoop_tolerated_prefix J pre _ {} hpre]
    simp only [pollLoop, htick_fail StatusCode bodyBytes {} err hstatus hdecode]

/-- C12 as amended, at a backend that answers with status 503 and the body of
an error object: the tick keeps polling, ten such ticks make `GetQueryResult`
time out, two such ticks followed by a complete result give that result, and
two such ticks followed by a 502 HTML page give the unmarshal error; with an
empty body the tick returns the unmarshal error. -/
theorem pollTick_non200_witness :
    pollTick miniJson (TickResponse.response 503 "\x7b\"error\":\"not ready\"\x7d") {}
        = TickOutcome.again {}
      ∧ pollTick miniJson (TickResponse.response 503 "") {}
        = TickOutcome.fail ("failed to unmarshal response body: " ++ "unexpected end of JSON input")
      ∧ (scriptedClient "/1/query_results/test/abc"
            (List.replicate 10
              (TickResponse.response 503 "\x7b\"error\":\"not ready\"\x7d"))).GetQueryResult
          miniJson "abc" ""
        = Except.error "timed out waiting for query result"
      ∧ pollLoop miniJson
          [TickResponse.response 503 "\x7b\"error\":\"not ready\"\x7d",
           TickResponse.response 200 "\x7b\"complete\":true\x7d"] {}
        = pollLoop miniJson [TickResponse.response 200 "\x7b\"complete\":true\x7d"] {}
      ∧ pollLoop miniJson
          [TickResponse.response 503 "",
           TickResponse.response 200 "\x7b\"complete\":true\x7d"] {}
        = Except.error ("failed to unmarshal response body: " ++ "unexpected end of JSON input")
      ∧ (scriptedClient "/1/query_results/test/abc"
            ([TickResponse.response 503 "\x7b\"error\":\"not ready\"\x7d",
              TickResponse.response 404 "\x7b\"error\":\"not ready\"\x7d"]
              ++ [TickResponse.response 200 "\x7b\"complete\":true\x7d"])).GetQueryResult
          miniJson "abc" "test"
        = pollLoop miniJson [TickResponse.response 200 "\x7b\"complete\":true\x7d"] {}
      ∧ pollLoop miniJson [TickResponse.response 200 "\x7b\"complete\":true\x7d"] {}
        = Except.ok { Complete := true }
      ∧ (scriptedClient "/1/query_results/test/abc"
            ([TickResponse.response 503 "\x7b\"error\":\"not ready\"\x7d",
              TickResponse.response 404 "\x7b\"error\":\"not ready\"\x7d"]
              ++ TickResponse.response 502 "<html>502 Bad Gateway</html>"
                :: [TickResponse.response 200 "\x7b\"complete\":true\x7d"])).GetQueryResult
          miniJson "abc" "test"
        = Except.error ("failed to unmarshal response body: "
            ++ "invalid character '<' looking for beginning of value") :=
  ⟨(pollTick_non200 miniJson).1 503 "\x7b\"error\":\"not ready\"\x7d" {}
      { Error := "not ready" } (by decide) rfl,
    (pollTick_non200 miniJson).2.1 503 "" {} "unexpected end of JSON input" (by decide) rfl,
    (pollTick_non200 miniJson).2.2.1
      (scriptedClient "/1/query_results/test/abc"
        (List.replicate 10 (TickResponse.response 503 "\x7b\"error\":\"not ready\"\x7d")))
      "abc" "" "/1/query_results/test/abc" (by decide) rfl rfl rfl (by decide),
    (pollTick_non200 miniJson).2.2.2.1 503 "\x7b\"error\":\"not ready\"\x7d"
      [TickResponse.response 200 "\x7b\"complete\":true\x7d"] {}
      { Error := "not ready" } (by decide) rfl,
    (pollTick_non200 miniJson).2.2.2.2.1 503 ""
      [TickResponse.response 200 "\x7b\"complete\":true\x7d"] {}
      "unexpected end of JSON input" (by decide) rfl,
    (pollTick_non200 miniJson).2.2.2.2.2.1
      (scriptedClient "/1/query_results/test/abc"
        ([TickResponse.response 503 "\x7b\"error\":\"not ready\"\x7d",
          TickResponse.response 404 "\x7b\"error\":\"not ready\"\x7d"]
          ++ [TickResponse.response 200 "\x7b\"complete\":true\x7d"]))
      "abc" "test" "/1/query_results/test/abc"
      [TickResponse.response 503 "\x7b\"error\":\"not ready\"\x7d",
       TickResponse.response 404 "\x7b\"error\":\"not ready\"\x7d"]
      [TickResponse.response 200 "\x7b\"complete\":true\x7d"]
      (by decide) rfl rfl rfl rfl (by decide),
    rfl,
    (pollTick_non200 miniJson).2.2.2.2.2.2
      (scriptedClient "/1/query_results/test/abc"
        ([TickResponse.response 503 "\x7b\"error\":\"not ready\"\x7d",
          TickResponse.response 404 "\x7b\"error\":\"not ready\"\x7d"]
          ++ TickResponse.response 502 "<html>502 Bad Gateway</html>"
            :: [TickResponse.response 200 "\x7b\"complete\":true\x7d"]))
      "abc" "test" "/1/query_results/test/abc"
      [TickResponse.response 503 "\x7b\"error\":\"not ready\"\x7d",
       TickResponse.response 404 "\x7b\"error\":\"not ready\"\x7d"]
      502 "<html>502 Bad Gateway</html>"
      [TickResponse.response 200 "\x7b\"complete\":true\x7d"]
      "invalid character '<' looking for beginning of value"
      (by decide) rfl rfl rfl rfl (by decide) (by decide) rfl⟩

end Honeycomb
